import Mathlib

/-!
Shallow embedding of the q-block-master puzzle engine.

Sources embedded:
* src/unnamed/part_000 (constants: GRID_SIZE, COST_ROTATE, SHAPE_TEMPLATES,
  COLORS, generateRandomShape, createEmptyGrid);
* src/types.ts (Grid, Shape, GameState);
* src/App.tsx (startGame, spawnPieces, handlePlacePiece, handleHoldDrop,
  handleRotate, handleRotateHold).

The file src/services/gameLogic.ts (canPlacePiece, placePiece, checkLines,
checkGameOver, rotateMatrix, calculateScore) is imported by App.tsx but is not
part of the provided sources; those functions are modelled from the spec
(sections 4.1-4.4), as marked on each definition.

Randomness (Math.random in generateRandomShape) is made explicit: draws take
index parameters, and the host-level handlers take the would-be fresh batch of
shapes as an argument, matching the spec's injectable random source.
-/

namespace QBlock

/-- GRID_SIZE from src/unnamed/part_000: the board is 8 by 8. -/
def GRID_SIZE : Nat := 8

/-- COST_ROTATE from src/unnamed/part_000: keys required to rotate. -/
def COST_ROTATE : Int := 2

/-- A grid cell: null (empty) or a color string, as in types.ts CellColor. -/
def Cell : Type := Option String

instance : DecidableEq Cell := by
  unfold Cell
  exact inferInstance

/-- Grid from types.ts: a matrix of cells (row-major, grid[y][x]). -/
def Grid : Type := List (List Cell)

instance : DecidableEq Grid := by
  unfold Grid
  exact inferInstance

/-- Shape from types.ts: an id (opaque), a 0/1 occupancy matrix, a color. -/
structure Shape where
  id : String
  matrix : List (List Nat)
  color : String
deriving DecidableEq, Repr

/-- SHAPE_TEMPLATES from src/unnamed/part_000: the sixteen base 0/1 matrices. -/
def SHAPE_TEMPLATES : List (List (List Nat)) :=
  [ [[1]],
    [[1, 1]],
    [[1], [1]],
    [[1, 1, 1]],
    [[1], [1], [1]],
    [[1, 1, 1, 1]],
    [[1], [1], [1], [1]],
    [[1, 1], [1, 1]],
    [[1, 1, 1], [1, 1, 1], [1, 1, 1]],
    [[1, 0], [1, 0], [1, 1]],
    [[0, 1], [0, 1], [1, 1]],
    [[1, 1, 1], [1, 0, 0]],
    [[1, 1, 1], [0, 1, 0]],
    [[0, 1, 0], [1, 1, 1]],
    [[1, 1, 0], [0, 1, 1]],
    [[0, 1, 1], [1, 1, 0]] ]

/-- COLORS from src/unnamed/part_000. -/
def COLORS : List String :=
  ["#06b6d4", "#8b5cf6", "#f43f5e", "#10b981", "#f59e0b"]

/-- generateRandomShape from src/unnamed/part_000, with the two Math.random
draws replaced by explicit indices (tIdx into SHAPE_TEMPLATES, cIdx into
COLORS) and the random id by a fixed string; the deep copy of the template is
the identity on immutable values. -/
def generateRandomShape (tIdx cIdx : Nat) : Shape :=
  { id := "id"
    matrix := SHAPE_TEMPLATES.getD (tIdx % SHAPE_TEMPLATES.length) []
    color := COLORS.getD (cIdx % COLORS.length) "" }

/-- createEmptyGrid from src/unnamed/part_000: an 8 by 8 grid of nulls. -/
def createEmptyGrid : Grid :=
  List.replicate GRID_SIZE (List.replicate GRID_SIZE (none : Cell))

/-- Cell lookup grid[y][x]; out-of-range indices read as empty. -/
def cellAt (g : Grid) (x y : Nat) : Cell :=
  (g.getD y []).getD x none

/-- Functional update grid[y][x] := c. -/
def setCell (g : Grid) (x y : Nat) (c : Cell) : Grid :=
  g.set y ((g.getD y []).set x c)

/-- The filled cells of an occupancy matrix, as (dx, dy) offsets. -/
def shapeCells (m : List (List Nat)) : List (Nat × Nat) :=
  (m.enum.map fun p =>
    p.2.enum.filterMap fun q =>
      if q.2 = 1 then some (q.1, p.1) else none).flatten

/-- Modelled from the spec (4.1, canPlace; src/services/gameLogic.ts
canPlacePiece is not under src/): every filled cell (dx,dy) of the shape must
map to an absolute position inside the 8 by 8 board whose grid cell is empty. -/
def canPlacePiece (g : Grid) (s : Shape) (ox oy : Nat) : Bool :=
  (shapeCells s.matrix).all fun d =>
    decide (ox + d.1 < GRID_SIZE) && decide (oy + d.2 < GRID_SIZE) &&
      (cellAt g (ox + d.1) (oy + d.2)).isNone

/-- Modelled from the spec (4.1, applyPlacement; src/services/gameLogic.ts
placePiece is not under src/): returns a new grid with every filled shape cell
set to the shape's color at its mapped absolute position; the input grid is
not mutated (functional update). -/
def placePiece (g : Grid) (s : Shape) (ox oy : Nat) : Grid :=
  (shapeCells s.matrix).foldl
    (fun acc d => setCell acc (ox + d.1) (oy + d.2) (some s.color)) g

/-- A row y is complete iff all 8 of its cells are non-empty (spec 4.1). -/
def rowComplete (g : Grid) (y : Nat) : Bool :=
  (List.range GRID_SIZE).all fun x => (cellAt g x y).isSome

/-- A column x is complete iff all 8 of its cells are non-empty (spec 4.1). -/
def colComplete (g : Grid) (x : Nat) : Bool :=
  (List.range GRID_SIZE).all fun y => (cellAt g x y).isSome

/-- Modelled from the spec (4.1, clearCompletedLines; src/services/gameLogic.ts
checkLines is not under src/): completeness of all rows and columns is
evaluated against the input grid, every cell on a complete row or column is
cleared in one pass, and linesCleared is the number of complete rows plus the
number of complete columns. -/
def checkLines (g : Grid) : Grid × Nat :=
  let rows := (List.range GRID_SIZE).filter fun y => rowComplete g y
  let cols := (List.range GRID_SIZE).filter fun x => colComplete g x
  let ng : Grid := (List.range GRID_SIZE).map fun y =>
    (List.range GRID_SIZE).map fun x =>
      if rows.elem y || cols.elem x then none else cellAt g x y
  (ng, rows.length + cols.length)

/-- Modelled from the spec (4.2, rotate; src/services/gameLogic.ts
rotateMatrix is not under src/): 90 degree clockwise rotation, output
dimensions the transpose of the input's; the input is not mutated. -/
def rotateMatrix (m : List (List Nat)) : List (List Nat) :=
  let rows := m.length
  let cols := (m.getD 0 []).length
  (List.range cols).map fun i =>
    (List.range rows).map fun j => (m.getD (rows - 1 - j) []).getD i 0

/-- Modelled from the spec (4.3, lineClearScore; src/services/gameLogic.ts
calculateScore is not under src/): 0 when linesCleared = 0, otherwise
base(linesCleared) * combo. The exact reward table is a tunable gameplay
parameter; we instantiate base(n) = 100 * n, which satisfies the required
non-decreasing-in-linesCleared and linear-in-combo invariants. -/
def calculateScore (linesCleared : Nat) (combo : Int) : Int :=
  if linesCleared = 0 then 0 else (100 * linesCleared : Int) * combo

/-- The four rotation states of a matrix (spec 4.4). -/
def rotationsOf (m : List (List Nat)) : List (List (List Nat)) :=
  [m, rotateMatrix m, rotateMatrix (rotateMatrix m),
   rotateMatrix (rotateMatrix (rotateMatrix m))]

/-- Can the matrix be placed anywhere on the board (spec 4.4 helper)? -/
def matrixFitsSomewhere (g : Grid) (m : List (List Nat)) : Bool :=
  (List.range GRID_SIZE).any fun y =>
    (List.range GRID_SIZE).any fun x =>
      canPlacePiece g { id := "", matrix := m, color := "" } x y

/-- Modelled from the spec (4.4, isGameOver; src/services/gameLogic.ts
checkGameOver is not under src/): the game ends iff no candidate shape (pool
shapes plus the hold piece if present), in any of its 4 rotations, can be
placed at any origin of the 8 by 8 board. -/
def checkGameOver (g : Grid) (pool : List Shape) (hold : Option Shape) : Bool :=
  let candidates := pool ++ (match hold with
    | some h => [h]
    | none => [])
  candidates.all fun s =>
    (rotationsOf s.matrix).all fun m => !(matrixFitsSomewhere g m)

/-- The host session state tracked by App.tsx (the slice relevant to the
engine: grid, score, highScore, keys, availablePieces, holdPiece, combo). -/
structure GameState where
  grid : Grid
  score : Int
  highScore : Int
  keys : Int
  availablePieces : List Shape
  holdPiece : Option Shape
  combo : Int
deriving DecidableEq

/-- Where a dragged piece came from: a pool index or the hold slot
(App.tsx sourceIndex: number | hold). -/
inductive PieceSource where
  | pool (i : Nat)
  | hold
deriving DecidableEq

/-- The piece the drag started from (App.tsx reads availablePieces[i] or
holdPiece; the drag deep-copies it, which is the identity on values). -/
def pieceOf (s : GameState) (src : PieceSource) : Option Shape :=
  match src with
  | .pool i => s.availablePieces[i]?
  | .hold => s.holdPiece

/-- startGame from App.tsx lines 69-78: empty grid, score 0, 3 bonus keys,
combo 1, empty hold, pool spawned fresh (the batch is the injected randomness);
highScore is carried over. -/
def startGame (highScore : Int) (batch : List Shape) : GameState :=
  { grid := createEmptyGrid
    score := 0
    highScore := highScore
    keys := 3
    availablePieces := batch
    holdPiece := none
    combo := 1 }

/-- The result of a placement turn: the new session state, plus the argument
triple (grid, pieces, holdPiece) actually passed to checkGameOver this turn,
if checkGameOver was invoked at all. -/
structure PlaceResult where
  state : GameState
  goCall : Option (Grid × List Shape × Option Shape)
deriving DecidableEq

/-- handlePlacePiece from App.tsx lines 264-330, as a pure transition.

Faithful points: turnPoints is blockCount*10 plus, when linesCleared > 0,
calculateScore(linesCleared, combo); keys gain linesCleared only on a clearing
turn; combo increments on a clearing turn and resets to 1 otherwise; highScore
is raised when the new score exceeds it; the grid becomes the cleared grid.
Source removal: from hold, holdPiece is cleared and no game-over check runs;
from the pool, the index is filtered out, and if the remainder is empty
spawnPieces runs, whose deferred checkGameOver closes over the grid and
holdPiece of the CURRENT RENDER, i.e. the pre-placement grid s.grid, not the
cleared grid (App.tsx lines 86-90); otherwise checkGameOver receives the
cleared grid and the filtered pool. The goCall field records the arguments of
that checkGameOver invocation. batch is the fresh triple spawnPieces would
draw. A missing source piece (out-of-range index) is a defensive no-op. -/
def handlePlacePiece (s : GameState) (src : PieceSource) (x y : Nat)
    (batch : List Shape) : PlaceResult :=
  match pieceOf s src with
  | none => ⟨s, none⟩
  | some piece =>
    let nextGrid := placePiece s.grid piece x y
    let blockCount : Nat := piece.matrix.flatten.foldl (fun a v => a + v) 0
    let cleared := checkLines nextGrid
    let clearedGrid := cleared.1
    let linesCleared := cleared.2
    let turnPoints : Int :=
      (blockCount * 10 : Nat) +
        (if linesCleared > 0 then calculateScore linesCleared s.combo else 0)
    let keys' := if linesCleared > 0 then s.keys + linesCleared else s.keys
    let combo' := if linesCleared > 0 then s.combo + 1 else 1
    let score' := s.score + turnPoints
    let highScore' := if score' > s.highScore then score' else s.highScore
    match src with
    | .hold =>
      ⟨{ grid := clearedGrid, score := score', highScore := highScore'
         keys := keys', availablePieces := s.availablePieces
         holdPiece := none, combo := combo' }, none⟩
    | .pool i =>
      let filtered := s.availablePieces.eraseIdx i
      if filtered.length = 0 then
        ⟨{ grid := clearedGrid, score := score', highScore := highScore'
           keys := keys', availablePieces := batch
           holdPiece := s.holdPiece, combo := combo' },
         some (s.grid, batch, s.holdPiece)⟩
      else
        ⟨{ grid := clearedGrid, score := score', highScore := highScore'
           keys := keys', availablePieces := filtered
           holdPiece := s.holdPiece, combo := combo' },
         some (clearedGrid, filtered, s.holdPiece)⟩

/-- handleHoldDrop from App.tsx lines 332-354, as a pure transition. Dropping
from hold onto hold is a no-op. Otherwise: with an occupied hold slot the held
piece is swapped back into the vacated pool index; with an empty hold slot the
piece leaves the pool, and if the pool thereby empties, spawnPieces refills it
with the fresh batch. -/
def handleHoldDrop (s : GameState) (src : PieceSource)
    (batch : List Shape) : GameState :=
  match src with
  | .hold => s
  | .pool i =>
    match s.availablePieces[i]? with
    | none => s
    | some piece =>
      match s.holdPiece with
      | some cur =>
        { s with holdPiece := some piece
                 availablePieces := s.availablePieces.set i cur }
      | none =>
        let newAvailable := s.availablePieces.eraseIdx i
        if newAvailable.length = 0 then
          { s with holdPiece := some piece, availablePieces := batch }
        else
          { s with holdPiece := some piece, availablePieces := newAvailable }

/-- handleRotate from App.tsx lines 362-377, value-level view: with no
selection, or with keys < COST_ROTATE, the state is unchanged; otherwise the
selected pool shape's matrix becomes its rotation and COST_ROTATE keys are
deducted. (The aliasing behaviour of the same handler is embedded separately
on RotState below.) -/
def handleRotateVal (s : GameState) (sel : Option Nat) : GameState :=
  match sel with
  | none => s
  | some i =>
    if s.keys < COST_ROTATE then s
    else
      match s.availablePieces[i]? with
      | none => s
      | some p =>
        { s with
            availablePieces :=
              s.availablePieces.set i { p with matrix := rotateMatrix p.matrix }
            keys := s.keys - COST_ROTATE }

/-- handleRotateHold from App.tsx lines 379-388, value-level view: with no
hold piece, or with keys < COST_ROTATE, the state is unchanged; otherwise the
hold piece's matrix becomes its rotation and COST_ROTATE keys are deducted. -/
def handleRotateHoldVal (s : GameState) : GameState :=
  match s.holdPiece with
  | none => s
  | some h =>
    if s.keys < COST_ROTATE then s
    else
      { s with holdPiece := some { h with matrix := rotateMatrix h.matrix }
               keys := s.keys - COST_ROTATE }

/-- Reference-level view of the rotation handlers, to capture JavaScript
object aliasing. Shape objects live in a store (the heap); the pool and the
hold slot hold references (store indices) to them. -/
structure RotState where
  store : List Shape
  pool : List Nat
  hold : Option Nat
  keys : Int
deriving DecidableEq

/-- handleRotate from App.tsx lines 362-377, reference-level view. The code
shallow-copies the pieces array (same object references), then assigns
piece.matrix = rotateMatrix(piece.matrix) on the object at the selected
reference: an in-place mutation of the store, visible through every alias of
that reference, the previously held pool array included. -/
def handleRotate (st : RotState) (sel : Option Nat) : RotState :=
  match sel with
  | none => st
  | some i =>
    if st.keys < COST_ROTATE then st
    else
      match st.pool[i]? with
      | none => st
      | some r =>
        match st.store[r]? with
        | none => st
        | some sh =>
          { st with
              store := st.store.set r { sh with matrix := rotateMatrix sh.matrix }
              keys := st.keys - COST_ROTATE }

/-- handleRotateHold from App.tsx lines 379-388, reference-level view. The
code spreads the hold object into a FRESH object, assigns the rotated matrix
on that fresh object, and repoints the hold slot at it: an allocation at the
end of the store; the object behind the old reference is untouched. -/
def handleRotateHold (st : RotState) : RotState :=
  match st.hold with
  | none => st
  | some r =>
    if st.keys < COST_ROTATE then st
    else
      match st.store[r]? with
      | none => st
      | some sh =>
        { st with
            store := st.store ++ [{ sh with matrix := rotateMatrix sh.matrix }]
            hold := some st.store.length
            keys := st.keys - COST_ROTATE }

/-! Concrete fixtures used to exercise the definitions. -/

/-- A 1x1 dot shape (template 0 with a catalog color). -/
def dotShape : Shape := { id := "d", matrix := [[1]], color := "#f59e0b" }

/-- A 1x2 horizontal line shape (template 1). -/
def lineShape : Shape := { id := "s", matrix := [[1, 1]], color := "#8b5cf6" }

/-- An 8x8 grid whose row 0 is filled except at x = 7. -/
def rowGrid : Grid :=
  (List.range GRID_SIZE).map fun y =>
    (List.range GRID_SIZE).map fun x =>
      if y = 0 ∧ x < 7 then some "#06b6d4" else none

/-- A fresh batch of three shapes, as spawnPieces would draw. -/
def freshBatch : List Shape := [dotShape, lineShape, dotShape]

/-- Session state: rowGrid on the board, a single dot left in the pool,
empty hold slot. -/
def staleFixture : GameState :=
  { grid := rowGrid, score := 0, highScore := 0, keys := 3
    availablePieces := [dotShape], holdPiece := none, combo := 1 }

/-- Session state: rowGrid on the board, two pool pieces, a dot in hold. -/
def holdFixture : GameState :=
  { grid := rowGrid, score := 0, highScore := 0, keys := 3
    availablePieces := [dotShape, lineShape], holdPiece := some dotShape
    combo := 1 }

/-- Reference-level state: two shape objects in the store, the pool holding a
reference to the first, the hold slot a reference to the second, 5 keys. -/
def rotFixture : RotState :=
  { store := [lineShape, dotShape], pool := [0], hold := some 1, keys := 5 }

/-- The linesCleared count produced by placing a piece on the current grid
(the second component of checkLines after placePiece). -/
def linesClearedAt (s : GameState) (piece : Shape) (x y : Nat) : Nat :=
  (checkLines (placePiece s.grid piece x y)).2

/-- The turn's points as computed by handlePlacePiece (App.tsx lines 270-280):
blockCount * 10, plus the line-clear score on a clearing turn. -/
def turnPoints (s : GameState) (piece : Shape) (x y : Nat) : Int :=
  ((piece.matrix.flatten.foldl (fun a v => a + v) 0) * 10 : Nat) +
    (if 0 < linesClearedAt s piece x y
     then calculateScore (linesClearedAt s piece x y) s.combo else 0)

/-- Field-level description of the state produced by handlePlacePiece, for a
turn whose source piece exists: score, highScore, keys, combo and grid of the
result, uniform across the three source-removal branches. -/
lemma place_result_fields (s : GameState) (src : PieceSource) (x y : Nat)
    (batch : List Shape) (piece : Shape) (hp : pieceOf s src = some piece) :
    (handlePlacePiece s src x y batch).state.score =
      s.score + turnPoints s piece x y ∧
    (handlePlacePiece s src x y batch).state.highScore =
      (if s.score + turnPoints s piece x y > s.highScore
       then s.score + turnPoints s piece x y else s.highScore) ∧
    (handlePlacePiece s src x y batch).state.keys =
      (if 0 < linesClearedAt s piece x y
       then s.keys + linesClearedAt s piece x y else s.keys) ∧
    (handlePlacePiece s src x y batch).state.combo =
      (if 0 < linesClearedAt s piece x y then s.combo + 1 else 1) ∧
    (handlePlacePiece s src x y batch).state.grid =
      (checkLines (placePiece s.grid piece x y)).1 := by
  cases src with
  | hold =>
    simp only [pieceOf] at hp
    simp [handlePlacePiece, pieceOf, hp, turnPoints, linesClearedAt]
  | pool i =>
    simp only [pieceOf] at hp
    by_cases h : (s.availablePieces.eraseIdx i).length = 0 <;>
      simp [handlePlacePiece, pieceOf, hp, turnPoints, linesClearedAt, h]

/-- C10: startGame initializes the currency to exactly 3 keys, and 3 keys are
enough to pay for one rotation at the fixed cost COST_ROTATE = 2, so currency
is not earned exclusively through line clears. -/
theorem C10_start_keys_cover_rotation (hs : Int) (batch : List Shape) :
    (startGame hs batch).keys = 3 ∧ COST_ROTATE = 2 ∧
      COST_ROTATE ≤ (startGame hs batch).keys := by
  refine ⟨rfl, rfl, ?_⟩
  simp [startGame, COST_ROTATE]

/-- C5: the combo is 1 at game start; after a placement turn the combo for the
next turn is combo + 1 when at least one line was cleared (independent of how
many), and 1 when no line was cleared. -/
theorem C5_combo_transition (hs : Int) (b : List Shape) (s : GameState)
    (src : PieceSource) (x y : Nat) (batch : List Shape) (piece : Shape)
    (hp : pieceOf s src = some piece) :
    (startGame hs b).combo = 1 ∧
    (handlePlacePiece s src x y batch).state.combo =
      (if 0 < linesClearedAt s piece x y then s.combo + 1 else 1) :=
  ⟨rfl, (place_result_fields s src x y batch piece hp).2.2.2.1⟩

/-- C5 witness: a concrete clearing turn (placing the dot completes row 0). -/
theorem C5_combo_transition_witness :
    (startGame 0 freshBatch).combo = 1 ∧
    (handlePlacePiece staleFixture (.pool 0) 7 0 freshBatch).state.combo =
      (if 0 < linesClearedAt staleFixture dotShape 7 0
       then staleFixture.combo + 1 else 1) :=
  C5_combo_transition 0 freshBatch staleFixture (.pool 0) 7 0 freshBatch
    dotShape rfl

/-- C6: the currency granted by a placement turn is exactly linesCleared when
at least one line was cleared, and exactly 0 otherwise. -/
theorem C6_currency_reward (s : GameState) (src : PieceSource) (x y : Nat)
    (batch : List Shape) (piece : Shape) (hp : pieceOf s src = some piece) :
    (handlePlacePiece s src x y batch).state.keys =
      s.keys + (if 0 < linesClearedAt s piece x y
                then (linesClearedAt s piece x y : Int) else 0) := by
  have h := (place_result_fields s src x y batch piece hp).2.2.1
  rw [h]
  split <;> simp

/-- C6 witness: the same concrete clearing turn grants exactly 1 key. -/
theorem C6_currency_reward_witness :
    (handlePlacePiece staleFixture (.pool 0) 7 0 freshBatch).state.keys =
      staleFixture.keys +
        (if 0 < linesClearedAt staleFixture dotShape 7 0
         then (linesClearedAt staleFixture dotShape 7 0 : Int) else 0) :=
  C6_currency_reward staleFixture (.pool 0) 7 0 freshBatch dotShape rfl

/-- The number of filled cells of an occupancy matrix (the spec's
filledCellCount, section 4.3). -/
def filledCellCount (m : List (List Nat)) : Nat :=
  (m.flatten.filter fun v => v = 1).length

/-- All entries of an occupancy matrix are 0 or 1. -/
def binaryMatrix (m : List (List Nat)) : Prop :=
  ∀ row ∈ m, ∀ v ∈ row, v = 0 ∨ v = 1

/-- Summing a 0/1 list (the code's blockCount reduce) counts its ones. -/
lemma binary_sum_aux (l : List Nat) (h : ∀ v ∈ l, v = 0 ∨ v = 1) (a : Nat) :
    l.foldl (fun x v => x + v) a = a + (l.filter fun v => v = 1).length := by
  induction l generalizing a with
  | nil => simp
  | cons v t ih =>
    have hv := h v (by simp)
    have ht : ∀ w ∈ t, w = 0 ∨ w = 1 := fun w hw => h w (by simp [hw])
    rcases hv with h0 | h1
    · subst h0
      simp only [List.foldl_cons, List.filter_cons]
      rw [ih ht]
      norm_num
    · subst h1
      simp only [List.foldl_cons, List.filter_cons]
      rw [ih ht]
      simp
      omega

/-- C7: for a binary shape matrix, the placement component of the turn's score
is exactly the number of filled cells times 10 (the line-clear component being
added separately on clearing turns). -/
theorem C7_placement_score (s : GameState) (src : PieceSource) (x y : Nat)
    (batch : List Shape) (piece : Shape) (hp : pieceOf s src = some piece)
    (hb : binaryMatrix piece.matrix) :
    (handlePlacePiece s src x y batch).state.score =
      s.score + (filledCellCount piece.matrix * 10 : Nat) +
        (if 0 < linesClearedAt s piece x y
         then calculateScore (linesClearedAt s piece x y) s.combo else 0) := by
  have h := (place_result_fields s src x y batch piece hp).1
  rw [h, turnPoints]
  have hbin : ∀ v ∈ piece.matrix.flatten, v = 0 ∨ v = 1 := by
    intro v hv
    rcases List.mem_flatten.mp hv with ⟨row, hrow, hvr⟩
    exact hb row hrow v hvr
  rw [binary_sum_aux piece.matrix.flatten hbin 0]
  simp [filledCellCount]
  ring

/-- C7 witness: the dot has one filled cell, worth 10 placement points. -/
theorem C7_placement_score_witness :
    (handlePlacePiece staleFixture (.pool 0) 7 0 freshBatch).state.score =
      staleFixture.score + (filledCellCount dotShape.matrix * 10 : Nat) +
        (if 0 < linesClearedAt staleFixture dotShape 7 0
         then calculateScore (linesClearedAt staleFixture dotShape 7 0)
           staleFixture.combo else 0) :=
  C7_placement_score staleFixture (.pool 0) 7 0 freshBatch dotShape rfl
    (by
      intro row hrow v hv
      simp [dotShape] at hrow
      subst hrow
      simp at hv
      omega)

/-- C2: with insufficient currency, a rotation request — of a pool shape or of
the hold piece — is a no-op failure (state unchanged, hence no matrix mutation
and no deduction — and both handlers are total functions, so no exception);
with sufficient currency, COST_ROTATE keys are deducted exactly once and the
rotated slot's matrix is replaced by its rotation, everything else unchanged.
The pool request is stated on st (any hold contents), the hold request on t
(any pool contents). -/
theorem C2_rotation_currency_gate (st t : RotState) (i r rh : Nat)
    (sh hh : Shape)
    (hpool : st.pool[i]? = some r) (hsh : st.store[r]? = some sh)
    (hhold : t.hold = some rh) (hhh : t.store[rh]? = some hh) :
    (st.keys < COST_ROTATE → handleRotate st (some i) = st) ∧
    (COST_ROTATE ≤ st.keys →
      (handleRotate st (some i)).keys = st.keys - COST_ROTATE ∧
      (handleRotate st (some i)).store[r]? =
        some { sh with matrix := rotateMatrix sh.matrix } ∧
      (handleRotate st (some i)).pool = st.pool ∧
      (handleRotate st (some i)).hold = st.hold) ∧
    (t.keys < COST_ROTATE → handleRotateHold t = t) ∧
    (COST_ROTATE ≤ t.keys →
      (handleRotateHold t).keys = t.keys - COST_ROTATE ∧
      (handleRotateHold t).hold = some t.store.length ∧
      (handleRotateHold t).store[t.store.length]? =
        some { hh with matrix := rotateMatrix hh.matrix } ∧
      (handleRotateHold t).pool = t.pool) := by
  refine ⟨?_, ?_, ?_, ?_⟩
  · intro hlt
    simp [handleRotate, hlt]
  · intro hge
    have hnlt : ¬ st.keys < COST_ROTATE := not_lt.mpr hge
    have hr : r < st.store.length := (List.getElem?_eq_some_iff.mp hsh).1
    simp [handleRotate, hnlt, hpool, hsh, List.getElem?_set_self hr]
  · intro hlt
    simp [handleRotateHold, hhold, hlt]
  · intro hge
    have hnlt : ¬ t.keys < COST_ROTATE := not_lt.mpr hge
    simp [handleRotateHold, hnlt, hhold, hhh, List.getElem?_concat_length]

/-- The rotation fixture with only 1 key (below the rotation cost). -/
def rotPoor : RotState :=
  { store := [lineShape, dotShape], pool := [0], hold := some 1, keys := 1 }

/-- C2 witness: on the concrete fixtures, rotation with 1 key is refused on
both the pool and the hold path, and rotation with 5 keys deducts exactly 2
and rotates the pool shape, respectively the hold piece. -/
theorem C2_rotation_currency_gate_witness :
    ((rotPoor.keys < COST_ROTATE →
        handleRotate rotPoor (some 0) = rotPoor) ∧
      (COST_ROTATE ≤ rotPoor.keys →
        (handleRotate rotPoor (some 0)).keys = rotPoor.keys - COST_ROTATE ∧
        (handleRotate rotPoor (some 0)).store[0]? =
          some { lineShape with matrix := rotateMatrix lineShape.matrix } ∧
        (handleRotate rotPoor (some 0)).pool = rotPoor.pool ∧
        (handleRotate rotPoor (some 0)).hold = rotPoor.hold) ∧
      (rotPoor.keys < COST_ROTATE → handleRotateHold rotPoor = rotPoor) ∧
      (COST_ROTATE ≤ rotPoor.keys →
        (handleRotateHold rotPoor).keys = rotPoor.keys - COST_ROTATE ∧
        (handleRotateHold rotPoor).hold = some rotPoor.store.length ∧
        (handleRotateHold rotPoor).store[rotPoor.store.length]? =
          some { dotShape with matrix := rotateMatrix dotShape.matrix } ∧
        (handleRotateHold rotPoor).pool = rotPoor.pool)) ∧
    ((rotFixture.keys < COST_ROTATE →
        handleRotate rotFixture (some 0) = rotFixture) ∧
      (COST_ROTATE ≤ rotFixture.keys →
        (handleRotate rotFixture (some 0)).keys =
          rotFixture.keys - COST_ROTATE ∧
        (handleRotate rotFixture (some 0)).store[0]? =
          some { lineShape with matrix := rotateMatrix lineShape.matrix } ∧
        (handleRotate rotFixture (some 0)).pool = rotFixture.pool ∧
        (handleRotate rotFixture (some 0)).hold = rotFixture.hold) ∧
      (rotFixture.keys < COST_ROTATE →
        handleRotateHold rotFixture = rotFixture) ∧
      (COST_ROTATE ≤ rotFixture.keys →
        (handleRotateHold rotFixture).keys =
          rotFixture.keys - COST_ROTATE ∧
        (handleRotateHold rotFixture).hold =
          some rotFixture.store.length ∧
        (handleRotateHold rotFixture).store[rotFixture.store.length]? =
          some { dotShape with matrix := rotateMatrix dotShape.matrix } ∧
        (handleRotateHold rotFixture).pool = rotFixture.pool)) :=
  ⟨C2_rotation_currency_gate rotPoor rotPoor 0 0 1 lineShape dotShape
      rfl rfl rfl rfl,
   C2_rotation_currency_gate rotFixture rotFixture 0 0 1 lineShape dotShape
      rfl rfl rfl rfl⟩

/-- C3 counterexample: a funded rotation of the pool shape at reference 0
leaves the pool holding the same reference, yet the matrix read through that
old reference has changed — the shape object previously held in the pool was
mutated, so the transform was not copy-on-write. -/
theorem C3_pool_rotation_mutates :
    (handleRotate rotFixture (some 0)).pool = rotFixture.pool ∧
    ((handleRotate rotFixture (some 0)).store.getD 0 lineShape).matrix ≠
      (rotFixture.store.getD 0 lineShape).matrix := by
  constructor
  · rfl
  · decide

/-- C3 amended: rotation of the hold piece is copy-on-write (a fresh object is
allocated with the rotated matrix and the old reference's object is unchanged),
but rotation of a pool shape mutates the referenced shape object in place: the
store cell behind the pool's unchanged reference now holds the rotated matrix. -/
theorem C3_copy_on_write_split (st : RotState) (i r rh : Nat) (sh hh : Shape)
    (hpool : st.pool[i]? = some r) (hsh : st.store[r]? = some sh)
    (hhold : st.hold = some rh) (hhh : st.store[rh]? = some hh)
    (hk : COST_ROTATE ≤ st.keys) :
    ((handleRotate st (some i)).store[r]? =
        some { sh with matrix := rotateMatrix sh.matrix } ∧
      (handleRotate st (some i)).pool = st.pool) ∧
    ((handleRotateHold st).store[rh]? = some hh ∧
      (handleRotateHold st).hold = some st.store.length ∧
      (handleRotateHold st).store[st.store.length]? =
        some { hh with matrix := rotateMatrix hh.matrix }) := by
  have hnlt : ¬ st.keys < COST_ROTATE := not_lt.mpr hk
  have hr : r < st.store.length := (List.getElem?_eq_some_iff.mp hsh).1
  have hrh : rh < st.store.length := (List.getElem?_eq_some_iff.mp hhh).1
  refine ⟨⟨?_, ?_⟩, ?_, ?_, ?_⟩
  · simp [handleRotate, hnlt, hpool, hsh, List.getElem?_set_self hr]
  · simp [handleRotate, hnlt, hpool, hsh]
  · simp [handleRotateHold, hnlt, hhold, hhh,
      List.getElem?_append_left hrh]
  · simp [handleRotateHold, hnlt, hhold, hhh]
  · simp [handleRotateHold, hnlt, hhold, hhh]

/-- C3 witness: the split behaviour at the concrete fixture (pool reference 0
mutated in place; hold reference 1 untouched, fresh object appended). -/
theorem C3_copy_on_write_split_witness :
    ((handleRotate rotFixture (some 0)).store[0]? =
        some { lineShape with matrix := rotateMatrix lineShape.matrix } ∧
      (handleRotate rotFixture (some 0)).pool = rotFixture.pool) ∧
    ((handleRotateHold rotFixture).store[1]? = some dotShape ∧
      (handleRotateHold rotFixture).hold = some rotFixture.store.length ∧
      (handleRotateHold rotFixture).store[rotFixture.store.length]? =
        some { dotShape with matrix := rotateMatrix dotShape.matrix }) :=
  C3_copy_on_write_split rotFixture 0 0 1 lineShape dotShape rfl rfl rfl rfl
    (by decide)

/-- Well-formedness of an occupancy matrix: binary entries, rectangular rows,
at least one filled cell, and both dimensions between 1 and 4. -/
def shapeOk (m : List (List Nat)) : Bool :=
  m.all (fun row => row.all fun v => v == 0 || v == 1) &&
  m.all (fun row => row.length == (m.getD 0 []).length) &&
  m.flatten.any (fun v => v == 1) &&
  decide (1 ≤ m.length) && decide (m.length ≤ 4) &&
  decide (1 ≤ (m.getD 0 []).length) && decide ((m.getD 0 []).length ≤ 4)

/-- C4 counterexample: the catalog can draw template 5 (the horizontal line of
four), whose column count is 4, not at most 3. -/
theorem C4_template_exceeds_three :
    ¬ (((generateRandomShape 5 0).matrix.getD 0 []).length ≤ 3) := by
  decide

/-- C4 amended: every shape drawn by the catalog has a binary, rectangular,
non-empty occupancy matrix whose row count and column count are each between
1 and 4 (the observed templates go up to 1x4 and 4x1 lines). -/
theorem C4_template_invariants (tIdx cIdx : Nat) :
    shapeOk (generateRandomShape tIdx cIdx).matrix = true := by
  have h : tIdx % SHAPE_TEMPLATES.length < 16 :=
    Nat.mod_lt _ (by decide)
  simp only [generateRandomShape]
  generalize hk : tIdx % SHAPE_TEMPLATES.length = k at h ⊢
  interval_cases k <;> decide

/-- C1 failing evaluation: placing the last pool piece — the dot at (7,0), an
accepted placement that completes and clears row 0 — takes the refill path,
where the game-over check receives the PRE-placement grid (the stale render
closure of spawnPieces) rather than the post-clear grid, and the two differ;
moreover a placement taken from the hold slot triggers no game-over check at
all. -/
theorem C1_stale_gameover_check :
    canPlacePiece staleFixture.grid dotShape 7 0 = true ∧
    (checkLines (placePiece staleFixture.grid dotShape 7 0)).2 = 1 ∧
    (handlePlacePiece staleFixture (.pool 0) 7 0 freshBatch).goCall =
      some (staleFixture.grid, freshBatch, none) ∧
    (handlePlacePiece staleFixture (.pool 0) 7 0 freshBatch).state.grid ≠
      staleFixture.grid ∧
    (handlePlacePiece holdFixture .hold 0 2 freshBatch).goCall = none := by
  refine ⟨by decide, by decide, by decide, by decide, by decide⟩

/-- C8: the pool discipline. Consuming a pool piece (by placement, or by
dropping it into an empty hold slot) keeps the remaining pieces exactly,
refilling with the fresh batch of 3 precisely when the remainder is empty;
a swap into an occupied hold slot keeps the pool size; placement from hold
leaves the pool untouched; and every resulting pool again has at most 3
shapes. -/
theorem C8_pool_discipline (u s t : GameState) (k i j x y : Nat)
    (batch : List Shape) (pk piece q cur : Shape)
    (hu : pieceOf u (.pool k) = some pk)
    (hu3 : u.availablePieces.length ≤ 3) (hb : batch.length = 3)
    (hp : pieceOf s (.pool i) = some piece)
    (hs3 : s.availablePieces.length ≤ 3)
    (hnone : s.holdPiece = none)
    (ht : t.availablePieces[j]? = some q) (hcur : t.holdPiece = some cur)
    (ht3 : t.availablePieces.length ≤ 3) :
    ((handlePlacePiece u (.pool k) x y batch).state.availablePieces =
       (if (u.availablePieces.eraseIdx k).length = 0 then batch
        else u.availablePieces.eraseIdx k)) ∧
    (handlePlacePiece u (.pool k) x y batch).state.availablePieces.length
      ≤ 3 ∧
    (handlePlacePiece t .hold x y batch).state.availablePieces =
      t.availablePieces ∧
    ((handleHoldDrop s (.pool i) batch).availablePieces =
       (if (s.availablePieces.eraseIdx i).length = 0 then batch
        else s.availablePieces.eraseIdx i)) ∧
    (handleHoldDrop s (.pool i) batch).availablePieces.length ≤ 3 ∧
    (handleHoldDrop t (.pool j) batch).availablePieces =
      t.availablePieces.set j cur ∧
    (handleHoldDrop t (.pool j) batch).availablePieces.length ≤ 3 := by
  simp only [pieceOf] at hu hp
  have hulen : (u.availablePieces.eraseIdx k).length ≤ 3 :=
    le_trans (List.length_eraseIdx_le _ _) hu3
  have hlen : (s.availablePieces.eraseIdx i).length ≤ 3 :=
    le_trans (List.length_eraseIdx_le _ _) hs3
  refine ⟨?_, ?_, ?_, ?_, ?_, ?_, ?_⟩
  · by_cases h : (u.availablePieces.eraseIdx k).length = 0 <;>
      simp [handlePlacePiece, pieceOf, hu, h]
  · by_cases h : (u.availablePieces.eraseIdx k).length = 0 <;>
      simp [handlePlacePiece, pieceOf, hu, h, hb, hulen]
  · simp [handlePlacePiece, pieceOf, hcur]
  · by_cases h : (s.availablePieces.eraseIdx i).length = 0 <;>
      simp [handleHoldDrop, hp, hnone, h]
  · by_cases h : (s.availablePieces.eraseIdx i).length = 0 <;>
      simp [handleHoldDrop, hp, hnone, h, hb, hlen]
  · simp [handleHoldDrop, ht, hcur]
  · simp [handleHoldDrop, ht, hcur, ht3]

/-- C8 witness: the concrete fixtures exercise every conjunct — placement from
the pool of a state whose hold slot is occupied, placement from hold, hold
drops from a state with an empty hold slot and from one with an occupied hold
slot, with a fresh batch of 3. -/
theorem C8_pool_discipline_witness :
    ((handlePlacePiece holdFixture (.pool 0) 7 0 freshBatch).state.availablePieces =
       (if (holdFixture.availablePieces.eraseIdx 0).length = 0 then freshBatch
        else holdFixture.availablePieces.eraseIdx 0)) ∧
    (handlePlacePiece holdFixture (.pool 0) 7 0 freshBatch).state.availablePieces.length ≤ 3 ∧
    (handlePlacePiece holdFixture .hold 7 0 freshBatch).state.availablePieces =
      holdFixture.availablePieces ∧
    ((handleHoldDrop staleFixture (.pool 0) freshBatch).availablePieces =
       (if (staleFixture.availablePieces.eraseIdx 0).length = 0 then freshBatch
        else staleFixture.availablePieces.eraseIdx 0)) ∧
    (handleHoldDrop staleFixture (.pool 0) freshBatch).availablePieces.length ≤ 3 ∧
    (handleHoldDrop holdFixture (.pool 1) freshBatch).availablePieces =
      holdFixture.availablePieces.set 1 dotShape ∧
    (handleHoldDrop holdFixture (.pool 1) freshBatch).availablePieces.length ≤ 3 :=
  C8_pool_discipline holdFixture staleFixture holdFixture 0 0 1 7 0 freshBatch
    dotShape dotShape lineShape dotShape rfl (by decide) (by decide) rfl
    (by decide) rfl rfl rfl (by decide)

/-- The session-state invariant of the spec's data model: score non-negative,
score bounded by highScore, keys non-negative, combo at least 1. -/
def SessionInv (s : GameState) : Prop :=
  0 ≤ s.score ∧ s.score ≤ s.highScore ∧ 0 ≤ s.keys ∧ 1 ≤ s.combo

/-- One in-session host operation, as embedded from App.tsx: a placement turn,
a pool rotation, a hold rotation, or a hold drop. -/
inductive Step : GameState → GameState → Prop where
  | place (u : GameState) (src : PieceSource) (x y : Nat)
      (batch : List Shape) :
      Step u ((handlePlacePiece u src x y batch).state)
  | rotateSel (u : GameState) (sel : Option Nat) :
      Step u (handleRotateVal u sel)
  | rotateHoldStep (u : GameState) : Step u (handleRotateHoldVal u)
  | holdDropStep (u : GameState) (src : PieceSource) (batch : List Shape) :
      Step u (handleHoldDrop u src batch)

/-- C9: every in-session operation preserves the session-state invariants
(score non-negative, keys non-negative, combo at least 1, highScore at least
the current score) and never decreases the score. -/
theorem C9_session_invariants (s s' : GameState) (hstep : Step s s')
    (hinv : SessionInv s) : SessionInv s' ∧ s.score ≤ s'.score := by
  obtain ⟨hsc, hhs, hk, hc⟩ := hinv
  cases hstep with
  | place src x y batch =>
    cases hpo : pieceOf s src with
    | none =>
      have hid : (handlePlacePiece s src x y batch).state = s := by
        cases src <;> simp only [pieceOf] at hpo <;>
          simp [handlePlacePiece, pieceOf, hpo]
      rw [hid]
      exact ⟨⟨hsc, hhs, hk, hc⟩, le_refl _⟩
    | some piece =>
      obtain ⟨h1, h2, h3, h4, _⟩ :=
        place_result_fields s src x y batch piece hpo
      have htp : 0 ≤ turnPoints s piece x y := by
        unfold turnPoints
        have h10 : (0 : Int) ≤
            ((piece.matrix.flatten.foldl (fun a v => a + v) 0) * 10 : Nat) :=
          Int.ofNat_nonneg _
        have hbonus : (0 : Int) ≤
            (if 0 < linesClearedAt s piece x y
             then calculateScore (linesClearedAt s piece x y) s.combo
             else 0) := by
          split
          · unfold calculateScore
            split
            · exact le_refl 0
            · exact mul_nonneg (by positivity) (le_trans zero_le_one hc)
          · exact le_refl 0
        linarith
      refine ⟨⟨?_, ?_, ?_, ?_⟩, ?_⟩
      · rw [h1]; linarith
      · rw [h1, h2]
        split
        · exact le_refl _
        · linarith
      · rw [h3]
        split
        · have : (0 : Int) ≤ (linesClearedAt s piece x y : Int) :=
            Int.ofNat_nonneg _
          linarith
        · exact hk
      · rw [h4]
        split
        · linarith
        · exact le_refl 1
      · rw [h1]; linarith
  | rotateSel sel =>
    cases sel with
    | none =>
      exact ⟨⟨hsc, hhs, hk, hc⟩, le_refl _⟩
    | some i =>
      by_cases hlt : s.keys < COST_ROTATE
      · simp only [handleRotateVal, if_pos hlt]
        exact ⟨⟨hsc, hhs, hk, hc⟩, le_refl _⟩
      · cases hg : s.availablePieces[i]? with
        | none =>
          simp only [handleRotateVal, if_neg hlt, hg]
          exact ⟨⟨hsc, hhs, hk, hc⟩, le_refl _⟩
        | some p =>
          simp only [handleRotateVal, if_neg hlt, hg]
          have h2 : COST_ROTATE ≤ s.keys := not_lt.mp hlt
          refine ⟨⟨hsc, hhs, ?_, hc⟩, le_refl _⟩
          show (0 : Int) ≤ s.keys - COST_ROTATE
          have h3 : COST_ROTATE = 2 := rfl
          omega
  | rotateHoldStep =>
    cases hh : s.holdPiece with
    | none =>
      simp only [handleRotateHoldVal, hh]
      exact ⟨⟨hsc, hhs, hk, hc⟩, le_refl _⟩
    | some h =>
      by_cases hlt : s.keys < COST_ROTATE
      · simp only [handleRotateHoldVal, hh, if_pos hlt]
        exact ⟨⟨hsc, hhs, hk, hc⟩, le_refl _⟩
      · simp only [handleRotateHoldVal, hh, if_neg hlt]
        have h2 : COST_ROTATE ≤ s.keys := not_lt.mp hlt
        refine ⟨⟨hsc, hhs, ?_, hc⟩, le_refl _⟩
        show (0 : Int) ≤ s.keys - COST_ROTATE
        have h3 : COST_ROTATE = 2 := rfl
        omega
  | holdDropStep src batch =>
    have hfields : (handleHoldDrop s src batch).score = s.score ∧
        (handleHoldDrop s src batch).highScore = s.highScore ∧
        (handleHoldDrop s src batch).keys = s.keys ∧
        (handleHoldDrop s src batch).combo = s.combo := by
      cases src with
      | hold => simp [handleHoldDrop]
      | pool i =>
        cases hg : s.availablePieces[i]? with
        | none => simp [handleHoldDrop, hg]
        | some piece =>
          cases hh : s.holdPiece with
          | none =>
            by_cases h : (s.availablePieces.eraseIdx i).length = 0 <;>
              simp [handleHoldDrop, hg, hh, h]
          | some cur => simp [handleHoldDrop, hg, hh]
    obtain ⟨e1, e2, e3, e4⟩ := hfields
    refine ⟨⟨?_, ?_, ?_, ?_⟩, ?_⟩
    · rw [e1]; exact hsc
    · rw [e1, e2]; exact hhs
    · rw [e3]; exact hk
    · rw [e4]; exact hc
    · rw [e1]

/-- C9 witness: the concrete clearing turn from the session-start state
preserves the invariant and does not decrease the score. -/
theorem C9_session_invariants_witness :
    SessionInv (handlePlacePiece staleFixture (.pool 0) 7 0 freshBatch).state ∧
      staleFixture.score ≤
        (handlePlacePiece staleFixture (.pool 0) 7 0 freshBatch).state.score :=
  C9_session_invariants staleFixture _
    (Step.place staleFixture (.pool 0) 7 0 freshBatch)
    ⟨by decide, by decide, by decide, by decide⟩

end QBlock
